import Mathlib

/-!
Shallow embedding of the EVA Reinforcement Learning Engine
(src/ofo-core/cpp/src/reinforcement_learning.cpp and its header).

Doubles are modelled as exact rationals; the mutex is irrelevant to the
sequential claims (every public operation holds the single engine mutex).
Random draws (the uniform real in getAction, the uniform int in
selectRandomAction, the batch indices in sampleBatch) are passed in as
explicit oracle arguments whose type or side conditions capture the
support of the corresponding distribution in the source.
A C++ exception escaping a call is modelled by an explicit Bool or Option:
the engine component carries the state as mutated up to the throw point.
-/

namespace EVA

/-- State struct: feature vector plus an identifier (reinforcement_learning.h).
The reward/terminal members are never read by the engine code and are omitted. -/
structure StateE where
  features : List ℚ
  state_id : String
  deriving Repr, DecidableEq

/-- Action struct: identifier, parameter vector, expected-reward annotation. -/
structure ActionE where
  action_id : String
  parameters : List ℚ
  expected_reward : ℚ
  deriving Repr, DecidableEq

/-- Experience struct (one stored transition). The timestamp member is never
read back by any engine code and is omitted. -/
structure Experience where
  state : StateE
  action : ActionE
  reward : ℚ
  next_state : StateE
  done : Bool
  deriving Repr, DecidableEq

/-- relu from QNetwork: max(0, x). -/
def relu (x : ℚ) : ℚ := max 0 x

/-- QNetwork: two flattened weight matrices (weights[0] input→hidden,
weights[1] hidden→output), one bias vector of length hidden+output,
and the dimensions fixed at construction. -/
structure QNetwork where
  weights : List (List ℚ)
  biases : List ℚ
  input_size : Nat
  hidden_size : Nat
  output_size : Nat
  learning_rate : ℚ
  deriving Repr, DecidableEq

/-- weights_[0] of the source. -/
def QNetwork.w0 (net : QNetwork) : List ℚ := net.weights.getD 0 []

/-- weights_[1] of the source. -/
def QNetwork.w1 (net : QNetwork) : List ℚ := net.weights.getD 1 []

/-- Sum f 0 + f 1 + ... + f (n-1), the accumulation loops of forward. -/
def dotSum (n : Nat) (f : Nat → ℚ) : ℚ := (List.range n).foldl (fun acc i => acc + f i) 0

/-- Hidden layer of QNetwork::forward: for each h < hidden_size,
relu(sum_i input[i] * w0[i*hidden+h] + biases[h]). -/
def QNetwork.hiddenLayer (net : QNetwork) (input : List ℚ) : List ℚ :=
  (List.range net.hidden_size).map (fun h =>
    relu (dotSum net.input_size
        (fun i => input.getD i 0 * net.w0.getD (i * net.hidden_size + h) 0)
      + net.biases.getD h 0))

/-- Output layer of QNetwork::forward: for each o < output_size,
sum_h hidden[h] * w1[h*output+o] + biases[hidden_size+o] (linear). -/
def QNetwork.outputLayer (net : QNetwork) (hidden : List ℚ) : List ℚ :=
  (List.range net.output_size).map (fun o =>
    dotSum net.hidden_size
        (fun h => hidden.getD h 0 * net.w1.getD (h * net.output_size + o) 0)
      + net.biases.getD (net.hidden_size + o) 0)

/-- QNetwork::forward: throws std::invalid_argument (modelled as none)
iff the input length differs from the configured input width. -/
def QNetwork.forward (net : QNetwork) (input : List ℚ) : Option (List ℚ) :=
  if input.length = net.input_size then
    some (net.outputLayer (net.hiddenLayer input))
  else none

/-- QNetwork::predict is exactly forward. -/
def QNetwork.predict (net : QNetwork) (state : List ℚ) : Option (List ℚ) :=
  net.forward state

/-- QNetwork::backward: output-layer gradient 2*(prediction[i]-target[i])/output_size;
weights_[1][i] -= learning_rate * gradient[i % output_size]; weights_[0] and
biases untouched. The none branch is unreachable at its call site (train has
already run forward on the same input). -/
def QNetwork.backward (net : QNetwork) (input target : List ℚ) : QNetwork :=
  match net.forward input with
  | none => net
  | some prediction =>
    let grad : Nat → ℚ := fun i =>
      2 * (prediction.getD i 0 - target.getD i 0) / (net.output_size : ℚ)
    { net with weights := [net.w0,
        (List.range net.w1.length).map
          (fun i => net.w1.getD i 0 - net.learning_rate * grad (i % net.output_size))] }

/-- QNetwork::train: forward (whose failure is the only way the call can
throw), an MSE loss that the source computes and discards, then backward. -/
def QNetwork.train (net : QNetwork) (state target : List ℚ) : Option QNetwork :=
  match net.forward state with
  | none => none
  | some _ => some (net.backward state target)

/-- QNetwork constructor: the two weight vectors are drawn from per-layer
Gaussians (Xavier init) — they are oracle parameters here; biases are zeroed
with length hidden_size + output_size. -/
def mkQNetwork (input_size hidden_size output_size : Nat) (lr : ℚ)
    (draw0 draw1 : List ℚ) : QNetwork :=
  { weights := [draw0, draw1],
    biases := List.replicate (hidden_size + output_size) 0,
    input_size := input_size, hidden_size := hidden_size,
    output_size := output_size, learning_rate := lr }

/-- The engine state: both networks, the replay buffer and all scalar
members of ReinforcementLearningEngine. -/
structure Engine where
  q_network : QNetwork
  target_network : QNetwork
  replay_buffer : List Experience
  buffer_capacity : Nat
  batch_size : Nat
  epsilon : ℚ
  epsilon_decay : ℚ
  epsilon_min : ℚ
  gamma : ℚ
  learning_rate : ℚ
  update_frequency : Nat
  steps_since_update : Nat
  total_steps : Nat
  total_episodes : Nat
  deriving Repr, DecidableEq

/-- The engine constructor: capacity 10000, batch 32, epsilon 1.0 with decay
0.995 and floor 0.01, gamma 0.99, sync frequency 100, all counters zero; the
two networks are built with independent random draws (oracle parameters). -/
def mkEngine (state_size action_size hidden_size : Nat) (lr : ℚ)
    (qd0 qd1 td0 td1 : List ℚ) : Engine :=
  { q_network := mkQNetwork state_size hidden_size action_size lr qd0 qd1,
    target_network := mkQNetwork state_size hidden_size action_size lr td0 td1,
    replay_buffer := [],
    buffer_capacity := 10000, batch_size := 32,
    epsilon := 1, epsilon_decay := 995/1000, epsilon_min := 1/100,
    gamma := 99/100, learning_rate := lr,
    update_frequency := 100, steps_since_update := 0,
    total_steps := 0, total_episodes := 0 }

/-- ReinforcementLearningEngine::initialize: clears the buffer, zeroes the
three counters, returns true (the networks are always non-null here). -/
def initializeEngine (e : Engine) : Engine × Bool :=
  ({ e with replay_buffer := [], total_steps := 0, total_episodes := 0,
            steps_since_update := 0 }, true)

/-- static_cast<size_t> of a double as used on action parameters: truncation;
the engine only ever produces nonnegative integral parameters (a negative
value would be undefined behaviour in the source). -/
def toIdx (q : ℚ) : Nat := q.floor.toNat

/-- selectRandomAction: draws uniformly from 0..3 (uniform_int_distribution
(0, 3), hardcoded "4 possible actions") — the Fin 4 argument is that draw.
Note the configured action count does not appear. -/
def selectRandomAction (k : Fin 4) : ActionE :=
  { action_id := "action_" ++ toString k.val,
    parameters := [(k.val : ℚ)], expected_reward := 0 }

/-- Index of the first maximal element, the std::max_element semantics
(only a strictly greater element replaces the current best). -/
def maxElemIdxAux : List ℚ → ℚ → Nat → Nat → Nat
  | [], _, best, _ => best
  | x :: xs, cur, best, pos =>
    if cur < x then maxElemIdxAux xs x pos (pos + 1)
    else maxElemIdxAux xs cur best (pos + 1)

/-- distance(begin, max_element(...)); 0 for the empty list (in the source an
empty range would dereference the end iterator — undefined behaviour). -/
def maxElemIdx : List ℚ → Nat
  | [] => 0
  | x :: xs => maxElemIdxAux xs x 0 1

/-- Value of *max_element; the empty case is undefined behaviour in the
source and is mapped to 0. -/
def maxElem : List ℚ → ℚ
  | [] => 0
  | x :: xs => xs.foldl max x

/-- selectBestAction: predict (none = DimensionMismatch thrown to the
caller), take the first argmax index, annotate with its Q-value. -/
def selectBestAction (e : Engine) (st : StateE) : Option ActionE :=
  (e.q_network.predict st.features).map (fun qv =>
    let best := maxElemIdx qv
    { action_id := "action_" ++ toString best,
      parameters := [(best : ℚ)],
      expected_reward := qv.getD best 0 })

/-- getAction: increments total_steps first, then epsilon-greedy on the
uniform [0,1) draw r; k is the integer draw used on the exploration branch.
A none action is a DimensionMismatch escaping from selectBestAction, after
the counter was already bumped. -/
def getAction (e : Engine) (r : ℚ) (k : Fin 4) (st : StateE) :
    Engine × Option ActionE :=
  let e1 := { e with total_steps := e.total_steps + 1 }
  if r < e1.epsilon then (e1, some (selectRandomAction k))
  else (e1, selectBestAction e1 st)

/-- Buffer insertion of storeExperience: if size >= capacity, erase the
first (oldest) element, then push_back. -/
def pushExperience (e : Engine) (x : Experience) : Engine :=
  { e with replay_buffer :=
      (if e.buffer_capacity ≤ e.replay_buffer.length
       then e.replay_buffer.drop 1 else e.replay_buffer) ++ [x] }

/-- ReinforcementLearningEngine::storeExperience. -/
def storeExperience (e : Engine) (st : StateE) (a : ActionE) (reward : ℚ)
    (ns : StateE) (done : Bool) : Engine :=
  pushExperience e
    { state := st, action := a, reward := reward, next_state := ns, done := done }

/-- Insert a list of transitions in order. -/
def storeAll (e : Engine) (xs : List Experience) : Engine :=
  xs.foldl pushExperience e

/-- The training target scalar of trainOnBatch: reward, plus
gamma * max next-state Q-value when the transition is not terminal. -/
def targetQ (gamma reward : ℚ) (done : Bool) (nxt : List ℚ) : ℚ :=
  if done then reward else reward + gamma * maxElem nxt

/-- The guarded overwrite of trainOnBatch: current_q[action_idx] = target_q
only when action_idx < current_q.size(). -/
def blendTarget (cur : List ℚ) (idx : Nat) (tq : ℚ) : List ℚ :=
  if idx < cur.length then cur.set idx tq else cur

/-- Out-of-range placeholder for replay_buffer[idx]; sampleBatch only
produces in-range indices, so it is never reached on the source's paths. -/
def dummyExperience : Experience :=
  { state := { features := [], state_id := "" },
    action := { action_id := "", parameters := [], expected_reward := 0 },
    reward := 0,
    next_state := { features := [], state_id := "" },
    done := false }

/-- The body of the trainOnBatch loop for one sampled transition: predict on
state with the live network, predict on next_state with the target network
(either failure is a DimensionMismatch escaping the call, modelled none),
blend the target into the live prediction at the taken action index, then
train the live network toward the blended vector. -/
def trainOnExp (q tnet : QNetwork) (gamma : ℚ) (exp : Experience) :
    Option QNetwork :=
  match q.predict exp.state.features, tnet.predict exp.next_state.features with
  | some cur, some nxt =>
    let tq := targetQ gamma exp.reward exp.done nxt
    let idx := toIdx (exp.action.parameters.getD 0 0)
    q.train exp.state.features (blendTarget cur idx tq)
  | _, _ => none

/-- The trainOnBatch loop over the sampled indices; on a throw the partially
updated live network is kept and the Bool flag records the escape. -/
def trainLoop (tnet : QNetwork) (buf : List Experience) (gamma : ℚ) :
    QNetwork → List Nat → QNetwork × Bool
  | q, [] => (q, false)
  | q, idx :: rest =>
    match trainOnExp q tnet gamma (buf.getD idx dummyExperience) with
    | none => (q, true)
    | some q1 => trainLoop tnet buf gamma q1 rest

/-- trainOnBatch, with the sampled indices passed as the oracle. -/
def trainOnBatch (e : Engine) (idxs : List Nat) : Engine × Bool :=
  let p := trainLoop e.target_network e.replay_buffer e.gamma e.q_network idxs
  ({ e with q_network := p.1 }, p.2)

/-- The support of sampleBatch: batch_size draws, each uniform over the
current buffer indices. -/
def ValidSample (e : Engine) (idxs : List Nat) : Prop :=
  idxs.length = e.batch_size ∧ ∀ i ∈ idxs, i < e.replay_buffer.length

/-- updateTargetNetwork: the source only prints "Updating target network...";
the weight copy announced by its own comment is absent, so it is the
identity on the engine state. -/
def updateTargetNetwork (e : Engine) : Engine := e

/-- ReinforcementLearningEngine::learn: silent no-op below one full batch;
otherwise train on a batch (a throw escapes before the counter and epsilon
lines run), bump the sync counter and sync+reset at the configured
frequency, then decay epsilon while it is above the floor. -/
def learn (e : Engine) (idxs : List Nat) : Engine × Bool :=
  if e.replay_buffer.length < e.batch_size then (e, false)
  else
    let p := trainOnBatch e idxs
    if p.2 then (p.1, true)
    else
      let s := p.1.steps_since_update + 1
      let e2 : Engine :=
        if p.1.update_frequency ≤ s
        then { updateTargetNetwork p.1 with steps_since_update := 0 }
        else { p.1 with steps_since_update := s }
      let e3 : Engine :=
        if e2.epsilon_min < e2.epsilon
        then { e2 with epsilon := e2.epsilon * e2.epsilon_decay }
        else e2
      (e3, false)

/-- Iterated learn calls, keeping the engine component. -/
def learnFold (e : Engine) (idxss : List (List Nat)) : Engine :=
  idxss.foldl (fun s idxs => (learn s idxs).1) e

/-- startEpisode: increments the episode counter. -/
def startEpisode (e : Engine) : Engine :=
  { e with total_episodes := e.total_episodes + 1 }

/-- endEpisode: only logs; the reward argument is unused by the source too. -/
def endEpisode (e : Engine) (_total_reward : ℚ) : Engine := e

/-- getAverageReward: 0 on an empty buffer, else the mean stored reward. -/
def getAverageReward (e : Engine) : ℚ :=
  if e.replay_buffer = [] then 0
  else (e.replay_buffer.map (fun x => x.reward)).sum / (e.replay_buffer.length : ℚ)

/-- std::clamp. -/
def clampQ (v lo hi : ℚ) : ℚ := if v < lo then lo else if hi < v then hi else v

/-- setExplorationRate: epsilon = clamp(argument, 0.0, 1.0). -/
def setExplorationRate (e : Engine) (eps : ℚ) : Engine :=
  { e with epsilon := clampQ eps 0 1 }

/-- emergencyStop: clears the replay buffer and forces epsilon to 1.0;
nothing else changes — in particular no state-machine flag exists and later
calls are not gated. -/
def emergencyStop (e : Engine) : Engine :=
  { e with replay_buffer := [], epsilon := 1 }

/-- resetLearning: clears the buffer, zeroes the three counters, epsilon 1.0. -/
def resetLearning (e : Engine) : Engine :=
  { e with replay_buffer := [], total_steps := 0, total_episodes := 0,
           steps_since_update := 0, epsilon := 1 }

/-- shutdown: clears the buffer (the networks are also released; no claim
observes the engine past that point). -/
def shutdownEngine (e : Engine) : Engine :=
  { e with replay_buffer := [] }

/-- One public operation of the engine API, with its random draws and
arguments packed in. -/
inductive Op where
  | initOp : Op
  | getActionOp : ℚ → Fin 4 → StateE → Op
  | storeOp : StateE → ActionE → ℚ → StateE → Bool → Op
  | learnOp : List Nat → Op
  | startOp : Op
  | endOp : ℚ → Op
  | setEpsOp : ℚ → Op
  | stopOp : Op
  | resetOp : Op
  | shutdownOp : Op

/-- The engine-state effect of one public call. -/
def step (e : Engine) : Op → Engine
  | Op.initOp => (initializeEngine e).1
  | Op.getActionOp r k st => (getAction e r k st).1
  | Op.storeOp st a rw ns d => storeExperience e st a rw ns d
  | Op.learnOp idxs => (learn e idxs).1
  | Op.startOp => startEpisode e
  | Op.endOp rw => endEpisode e rw
  | Op.setEpsOp x => setExplorationRate e x
  | Op.stopOp => emergencyStop e
  | Op.resetOp => resetLearning e
  | Op.shutdownOp => shutdownEngine e

/-- A whole call sequence. -/
def run (e : Engine) (ops : List Op) : Engine := ops.foldl step e

/-- Concrete 1-1-1 network with zero draws and zero learning rate, used to
instantiate general theorems. -/
def net0 : QNetwork := mkQNetwork 1 1 1 0 [0] [0]

/-- Concrete engine from the constructor, 1 input, 1 action, 1 hidden unit,
zero learning rate, zero weight draws. -/
def engBase : Engine := mkEngine 1 1 1 0 [0] [0] [0] [0]

/-- A transition over the 1-wide state space, action index 0, reward 0. -/
def expC1 : Experience :=
  { state := { features := [0], state_id := "s" },
    action := { action_id := "action_0", parameters := [0], expected_reward := 0 },
    reward := 0,
    next_state := { features := [0], state_id := "t" },
    done := false }

/-- Engine observed right after emergencyStop followed by 32 stored
transitions and no reset. -/
def engC1 : Engine := storeAll (emergencyStop engBase) (List.replicate 32 expC1)

/-- Engine with epsilon set (through the public setter, hence clamped) to
0.01005, a value in the open interval (epsilon_min, epsilon_min/decay),
and 32 stored transitions. -/
def engC4 : Engine :=
  storeAll (setExplorationRate engBase (201/20000)) (List.replicate 32 expC1)

/-- A possible sampleBatch draw on a 32-element buffer: 32 indices, all 0. -/
def sample32 : List Nat := List.replicate 32 0

/-- Test-fixture capacity-2 variant used to instantiate the FIFO theorem. -/
def engC3 : Engine := { mkEngine 1 1 1 0 [] [] [] [] with buffer_capacity := 2 }

/-- Three distinguishable transitions for the FIFO instance. -/
def xsC3 : List Experience :=
  [{ dummyExperience with reward := 1 },
   { dummyExperience with reward := 2 },
   { dummyExperience with reward := 3 }]

/-- Small nonzero network for the training-target instance: one input, one
hidden unit, one output, weights 1 and 2. -/
def netC6 : QNetwork := mkQNetwork 1 1 1 (1/10) [1] [2]

/-- Transition used for the training-target instance. -/
def expC6 : Experience :=
  { state := { features := [1], state_id := "a" },
    action := { action_id := "action_0", parameters := [0], expected_reward := 0 },
    reward := 5,
    next_state := { features := [1], state_id := "b" },
    done := false }

/-- 2-input 4-output network used to instantiate the dimension-check
theorem. -/
def netC8 : QNetwork :=
  mkQNetwork 2 3 4 (1/10) (List.replicate 6 0) (List.replicate 12 0)

/-- The epsilon-range invariant: epsilon and the decay factor both lie in
[0, 1]. -/
def EpsInv (e : Engine) : Prop :=
  0 ≤ e.epsilon ∧ e.epsilon ≤ 1 ∧ 0 ≤ e.epsilon_decay ∧ e.epsilon_decay ≤ 1

/- ===================== Helper lemmas ===================== -/

theorem ratFloor_eq_intFloor (q : ℚ) : q.floor = ⌊q⌋ := rfl

theorem toIdx_natCast (n : ℕ) : toIdx ((n : ℚ)) = n := by
  unfold toIdx
  rw [ratFloor_eq_intFloor, Int.floor_natCast]
  exact Int.toNat_natCast n

theorem pushExperience_buffer (e : Engine) (x : Experience) :
    (pushExperience e x).replay_buffer =
      (if e.buffer_capacity ≤ e.replay_buffer.length
       then e.replay_buffer.drop 1 else e.replay_buffer) ++ [x] := rfl

theorem storeAll_scalars (xs : List Experience) : ∀ e : Engine,
    (storeAll e xs).buffer_capacity = e.buffer_capacity ∧
    (storeAll e xs).batch_size = e.batch_size ∧
    (storeAll e xs).epsilon = e.epsilon ∧
    (storeAll e xs).epsilon_min = e.epsilon_min ∧
    (storeAll e xs).epsilon_decay = e.epsilon_decay ∧
    (storeAll e xs).gamma = e.gamma ∧
    (storeAll e xs).q_network = e.q_network ∧
    (storeAll e xs).target_network = e.target_network ∧
    (storeAll e xs).steps_since_update = e.steps_since_update ∧
    (storeAll e xs).update_frequency = e.update_frequency := by
  induction xs with
  | nil => intro e; exact ⟨rfl, rfl, rfl, rfl, rfl, rfl, rfl, rfl, rfl, rfl⟩
  | cons x xs ih => intro e; exact ih (pushExperience e x)

theorem storeAll_buffer_closed (xs : List Experience) : ∀ (e : Engine),
    e.replay_buffer.length ≤ e.buffer_capacity → 0 < e.buffer_capacity →
    (storeAll e xs).replay_buffer =
      (e.replay_buffer ++ xs).drop
        (e.replay_buffer.length + xs.length - e.buffer_capacity) := by
  induction xs with
  | nil =>
    intro e h hc
    have hz : e.replay_buffer.length + ([] : List Experience).length - e.buffer_capacity = 0 := by
      simp only [List.length_nil]
      omega
    show e.replay_buffer = _
    rw [hz, List.append_nil, List.drop_zero]
  | cons x xs ih =>
    intro e h hc
    have hstep : storeAll e (x :: xs) = storeAll (pushExperience e x) xs := rfl
    rw [hstep]
    by_cases hfull : e.buffer_capacity ≤ e.replay_buffer.length
    · have hlen : e.replay_buffer.length = e.buffer_capacity := le_antisymm h hfull
      have hone : 1 ≤ e.replay_buffer.length := by omega
      have hb : (pushExperience e x).replay_buffer = e.replay_buffer.drop 1 ++ [x] := by
        rw [pushExperience_buffer, if_pos hfull]
      have hlen2 : (pushExperience e x).replay_buffer.length = e.replay_buffer.length := by
        rw [hb]; simp; omega
      have hle2 : (pushExperience e x).replay_buffer.length ≤
          (pushExperience e x).buffer_capacity := by
        rw [hlen2]; exact h
      have hrec := ih (pushExperience e x) hle2 hc
      have hcap : (pushExperience e x).buffer_capacity = e.buffer_capacity := rfl
      rw [hrec, hcap, hlen2, hb]
      have hassoc : (e.replay_buffer.drop 1 ++ [x]) ++ xs
          = e.replay_buffer.drop 1 ++ (x :: xs) := by
        rw [List.append_assoc]; rfl
      rw [hassoc, ← List.drop_append_of_le_length hone, List.drop_drop]
      congr 1
      simp only [List.length_cons]
      omega
    · have hb : (pushExperience e x).replay_buffer = e.replay_buffer ++ [x] := by
        rw [pushExperience_buffer, if_neg hfull]
      have hlen2 : (pushExperience e x).replay_buffer.length
          = e.replay_buffer.length + 1 := by rw [hb]; simp
      have hle2 : (pushExperience e x).replay_buffer.length ≤
          (pushExperience e x).buffer_capacity := by
        show _ ≤ e.buffer_capacity
        rw [hlen2]; omega
      have hrec := ih (pushExperience e x) hle2 hc
      have hcap : (pushExperience e x).buffer_capacity = e.buffer_capacity := rfl
      rw [hrec, hcap, hlen2, hb, List.append_assoc]
      have hxs : [x] ++ xs = x :: xs := rfl
      rw [hxs]
      congr 1
      simp only [List.length_cons]
      omega

/- ===================== Claim theorems ===================== -/

/-- C5: for every engine state reachable by any sequence of public
operations, emergencyStop leaves the Experience Store empty and epsilon
equal to 1.0. -/
theorem emergencyStop_clears_buffer_and_maxes_epsilon (e0 : Engine) (ops : List Op) :
    (emergencyStop (run e0 ops)).replay_buffer = [] ∧
    (emergencyStop (run e0 ops)).epsilon = 1 :=
  ⟨rfl, rfl⟩

/-- C9: when the Experience Store holds fewer transitions than the batch
size, learn returns the engine completely unchanged (weights of both
networks, epsilon, and every counter) and signals no error. -/
theorem learn_insufficient_data_noop (e : Engine) (idxs : List Nat)
    (h : e.replay_buffer.length < e.batch_size) :
    learn e idxs = (e, false) := by
  unfold learn
  rw [if_pos h]

theorem learn_insufficient_data_noop_witness :
    (mkEngine 4 2 64 (1/100) [] [] [] []).replay_buffer.length <
        (mkEngine 4 2 64 (1/100) [] [] [] []).batch_size ∧
    learn (mkEngine 4 2 64 (1/100) [] [] [] []) [0]
      = (mkEngine 4 2 64 (1/100) [] [] [] [], false) :=
  ⟨by decide, learn_insufficient_data_noop _ _ (by decide)⟩

/-- C2 (code bug): learn never changes the target network: the source's
updateTargetNetwork only logs, so the weight copy the claim (and the
function's own comment) announces never happens, for any engine state and
any sampled batch — in particular after the sync counter reaches the
update frequency and is reset. -/
theorem learn_preserves_target_network (e : Engine) (idxs : List Nat) :
    ((learn e idxs).1).target_network = e.target_network := by
  simp only [learn, trainOnBatch, updateTargetNetwork]
  split_ifs <;> rfl

/-- C7 (code bug): the exploration branch draws from the hardcoded index
set 0..3 ("4 possible actions"), ignoring the configured action count: with
the test fixture's 2-action configuration, the draw 3 yields action index 3,
outside 0..1. -/
theorem selectRandomAction_fixed_range_ignores_config :
    (∀ k : Fin 4, toIdx ((selectRandomAction k).parameters.getD 0 0) = k.val) ∧
    ¬ (toIdx ((selectRandomAction ⟨3, by omega⟩).parameters.getD 0 0)
        < (mkEngine 4 2 64 (1/100) [] [] [] []).q_network.output_size) := by
  constructor
  · intro k
    simp [selectRandomAction, toIdx_natCast]
  · intro h
    rw [show (selectRandomAction ⟨3, by omega⟩).parameters.getD 0 0 = ((3 : ℕ) : ℚ) from rfl,
       toIdx_natCast] at h
    exact absurd h (by decide)

/-- C8: predict yields a vector of length equal to the configured action
count whenever the input has the configured width, and fails (with the
DimensionMismatch throw, modelled as none) exactly when it does not. -/
theorem predict_length_eq_actions_and_dim_check (net : QNetwork) (input : List ℚ) :
    (∀ out, net.predict input = some out → out.length = net.output_size) ∧
    (net.predict input = none ↔ input.length ≠ net.input_size) := by
  unfold QNetwork.predict QNetwork.forward
  by_cases h : input.length = net.input_size
  · rw [if_pos h]
    constructor
    · rintro out hout
      cases hout
      simp [QNetwork.outputLayer]
    · simp [h]
  · rw [if_neg h]
    constructor
    · rintro out hout
      cases hout
    · simp [h]

theorem predict_length_eq_actions_and_dim_check_witness :
    netC8.predict [5] = none ∧
    (∀ out, netC8.predict [5, 7] = some out → out.length = 4) :=
  ⟨(predict_length_eq_actions_and_dim_check netC8 [5]).2.mpr (by decide),
   fun out h => (predict_length_eq_actions_and_dim_check netC8 [5, 7]).1 out h⟩

/-- C3: starting from an empty store, the size never exceeds the capacity
at any prefix of the insertion sequence, and after capacity + k insertions
exactly the most recent capacity transitions remain, in insertion order. -/
theorem store_capacity_fifo (e : Engine) (hnil : e.replay_buffer = [])
    (hc : 0 < e.buffer_capacity) (xs : List Experience) :
    (∀ pre suf, xs = pre ++ suf →
       (storeAll e pre).replay_buffer.length ≤ e.buffer_capacity) ∧
    (∀ k, xs.length = e.buffer_capacity + k →
       (storeAll e xs).replay_buffer = xs.drop k) := by
  have key : ∀ ys : List Experience,
      (storeAll e ys).replay_buffer = ys.drop (ys.length - e.buffer_capacity) := by
    intro ys
    have h0 : e.replay_buffer.length ≤ e.buffer_capacity := by rw [hnil]; simp
    have := storeAll_buffer_closed ys e h0 hc
    rw [hnil] at this
    simpa using this
  constructor
  · intro pre _ _
    rw [key pre]
    simp
    omega
  · intro k hk
    rw [key xs, hk]
    congr 1
    omega

theorem store_capacity_fifo_witness :
    (engC3.replay_buffer = [] ∧ 0 < engC3.buffer_capacity) ∧
    ((∀ pre suf, xsC3 = pre ++ suf →
        (storeAll engC3 pre).replay_buffer.length ≤ engC3.buffer_capacity) ∧
     (∀ k, xsC3.length = engC3.buffer_capacity + k →
        (storeAll engC3 xsC3).replay_buffer = xsC3.drop k)) :=
  ⟨⟨rfl, by decide⟩, store_capacity_fifo engC3 rfl (by decide) xsC3⟩

theorem toIdx_zero : toIdx (0 : ℚ) = 0 := by
  have h : ((0 : ℕ) : ℚ) = (0 : ℚ) := by norm_num
  rw [← h, toIdx_natCast]

theorem trainOnExp_net0 : trainOnExp net0 net0 (99/100) expC1 = some net0 := by
  norm_num [trainOnExp, net0, expC1, mkQNetwork, QNetwork.predict, QNetwork.forward,
    QNetwork.hiddenLayer, QNetwork.outputLayer, dotSum, QNetwork.w0, QNetwork.w1, relu,
    targetQ, maxElem, blendTarget, toIdx_zero, QNetwork.train, QNetwork.backward,
    List.range_succ]

theorem learn_decay_eval (e : Engine) (idxs : List Nat)
    (hlen : ¬ e.replay_buffer.length < e.batch_size)
    (htr : trainLoop e.target_network e.replay_buffer e.gamma e.q_network idxs
        = (e.q_network, false))
    (hfreq : ¬ e.update_frequency ≤ e.steps_since_update + 1)
    (heps : e.epsilon_min < e.epsilon) :
    learn e idxs = ({ e with steps_since_update := e.steps_since_update + 1,
                             epsilon := e.epsilon * e.epsilon_decay }, false) := by
  have hlen' : (e.replay_buffer.length < e.batch_size) = False := eq_false hlen
  have hfreq' : (e.update_frequency ≤ e.steps_since_update + 1) = False := eq_false hfreq
  have heps' : (e.epsilon_min < e.epsilon) = True := eq_true heps
  simp only [learn, trainOnBatch, updateTargetNetwork, htr, hlen', hfreq', heps',
    if_false, if_true, ite_false, ite_true, Bool.false_eq_true]

theorem learn_guard_noop (e : Engine) (idxs : List Nat)
    (h : e.replay_buffer.length < e.batch_size) : learn e idxs = (e, false) := by
  unfold learn
  rw [if_pos h]

theorem trainLoop_const (tnet : QNetwork) (buf : List Experience) (g : ℚ) (q : QNetwork)
    (idxs : List Nat)
    (h : ∀ i ∈ idxs, trainOnExp q tnet g (buf.getD i dummyExperience) = some q) :
    trainLoop tnet buf g q idxs = (q, false) := by
  induction idxs with
  | nil => rfl
  | cons i rest ih =>
    have hi := h i (List.mem_cons_self i rest)
    show trainLoop tnet buf g q (i :: rest) = (q, false)
    unfold trainLoop
    rw [hi]
    exact ih (fun j hj => h j (List.mem_cons_of_mem i hj))

theorem engC1_facts :
    engC1.replay_buffer = List.replicate 32 expC1 ∧
    engC1.batch_size = 32 ∧ engC1.epsilon = 1 ∧ engC1.epsilon_min = 1/100 ∧
    engC1.epsilon_decay = 995/1000 ∧ engC1.gamma = 99/100 ∧
    engC1.q_network = net0 ∧ engC1.target_network = net0 ∧
    engC1.steps_since_update = 0 ∧ engC1.update_frequency = 100 := by
  have hs := storeAll_scalars (List.replicate 32 expC1) (emergencyStop engBase)
  have hb := storeAll_buffer_closed (List.replicate 32 expC1) (emergencyStop engBase)
      (by decide) (by decide)
  exact ⟨by simpa using hb, hs.2.1, hs.2.2.1, hs.2.2.2.1, hs.2.2.2.2.1,
    hs.2.2.2.2.2.1, hs.2.2.2.2.2.2.1, hs.2.2.2.2.2.2.2.1,
    hs.2.2.2.2.2.2.2.2.1, hs.2.2.2.2.2.2.2.2.2⟩

/-- C1 counterexample: after emergencyStop on a fresh engine, with no reset
in between, storing 32 transitions and calling learn once decays epsilon
(and raises no failure): the claimed blocking of learn after emergencyStop
does not exist in the code. -/
theorem emergencyStop_not_blocking_cex :
    (learn engC1 sample32).1.epsilon ≠ engC1.epsilon ∧
    (learn engC1 sample32).2 = false := by
  obtain ⟨hbuf, hbatch, heps, hmin, hdec, hgam, hq, htn, hsteps, hfreq⟩ := engC1_facts
  have hlen : ¬ engC1.replay_buffer.length < engC1.batch_size := by
    rw [hbuf, hbatch]
    simp
  have htr : trainLoop engC1.target_network engC1.replay_buffer engC1.gamma
      engC1.q_network sample32 = (engC1.q_network, false) := by
    rw [hbuf, hgam, hq, htn]
    exact trainLoop_const net0 (List.replicate 32 expC1) (99/100) net0 sample32
      (fun i hi => by
        have h0 : i = 0 := List.eq_of_mem_replicate hi
        subst h0
        exact trainOnExp_net0)
  have hfr : ¬ engC1.update_frequency ≤ engC1.steps_since_update + 1 := by
    rw [hfreq, hsteps]
    omega
  have hlt : engC1.epsilon_min < engC1.epsilon := by
    rw [hmin, heps]
    norm_num
  have hEq := learn_decay_eval engC1 sample32 hlen htr hfr hlt
  rw [hEq]
  constructor
  · show engC1.epsilon * engC1.epsilon_decay ≠ engC1.epsilon
    rw [heps, hdec]
    norm_num
  · rfl

/-- C1 amended: after emergencyStop the Experience Store is empty, so every
following sequence of learn calls (with no intervening store) is a silent
no-op; learn is blocked only while the store holds fewer than batch_size
transitions, not permanently (see the counterexample), and no SafetyBlocked
failure state exists. -/
theorem learn_noop_after_emergencyStop (e : Engine) (hb : 0 < e.batch_size)
    (idxss : List (List Nat)) :
    learnFold (emergencyStop e) idxss = emergencyStop e := by
  have key : ∀ (l : List (List Nat)) (f : Engine), f.replay_buffer = [] →
      0 < f.batch_size → learnFold f l = f := by
    intro l
    induction l with
    | nil => intro f _ _; rfl
    | cons idxs rest ih =>
      intro f hf hbf
      have hstep : learn f idxs = (f, false) :=
        learn_guard_noop f idxs (by rw [hf]; simpa using hbf)
      show learnFold ((learn f idxs).1) rest = f
      rw [hstep]
      exact ih f hf hbf
  exact key idxss (emergencyStop e) rfl hb

theorem learn_noop_after_emergencyStop_witness :
    0 < (mkEngine 4 2 64 (1/100) [] [] [] []).batch_size ∧
    learnFold (emergencyStop (mkEngine 4 2 64 (1/100) [] [] [] [])) [[0], [5], [7]]
      = emergencyStop (mkEngine 4 2 64 (1/100) [] [] [] []) :=
  ⟨by decide, learn_noop_after_emergencyStop _ (by decide) [[0], [5], [7]]⟩

theorem engC4_facts :
    engC4.replay_buffer = List.replicate 32 expC1 ∧
    engC4.batch_size = 32 ∧ engC4.epsilon = 201/20000 ∧ engC4.epsilon_min = 1/100 ∧
    engC4.epsilon_decay = 995/1000 ∧ engC4.gamma = 99/100 ∧
    engC4.q_network = net0 ∧ engC4.target_network = net0 ∧
    engC4.steps_since_update = 0 ∧ engC4.update_frequency = 100 := by
  have hs := storeAll_scalars (List.replicate 32 expC1)
      (setExplorationRate engBase (201/20000))
  have hb := storeAll_buffer_closed (List.replicate 32 expC1)
      (setExplorationRate engBase (201/20000)) (by decide) (by decide)
  have heps : engC4.epsilon = 201/20000 := by
    have h1 : engC4.epsilon = clampQ (201/20000) 0 1 := hs.2.2.1
    rw [h1]
    norm_num [clampQ]
  exact ⟨by simpa using hb, hs.2.1, heps, hs.2.2.2.1, hs.2.2.2.2.1,
    hs.2.2.2.2.2.1, hs.2.2.2.2.2.2.1, hs.2.2.2.2.2.2.2.1,
    hs.2.2.2.2.2.2.2.2.1, hs.2.2.2.2.2.2.2.2.2⟩

/-- C4 counterexample: set epsilon (via the clamped public setter) to
0.01005, a reachable value just above the floor 0.01; one learn call with a
full buffer multiplies it by 0.995, giving 0.00999975, strictly below the
floor — epsilon does fall below epsilon_min. -/
theorem epsilon_below_floor_cex :
    (learn engC4 sample32).1.epsilon < (learn engC4 sample32).1.epsilon_min := by
  obtain ⟨hbuf, hbatch, heps, hmin, hdec, hgam, hq, htn, hsteps, hfreq⟩ := engC4_facts
  have hlen : ¬ engC4.replay_buffer.length < engC4.batch_size := by
    rw [hbuf, hbatch]
    simp
  have htr : trainLoop engC4.target_network engC4.replay_buffer engC4.gamma
      engC4.q_network sample32 = (engC4.q_network, false) := by
    rw [hbuf, hgam, hq, htn]
    exact trainLoop_const net0 (List.replicate 32 expC1) (99/100) net0 sample32
      (fun i hi => by
        have h0 : i = 0 := List.eq_of_mem_replicate hi
        subst h0
        exact trainOnExp_net0)
  have hfr : ¬ engC4.update_frequency ≤ engC4.steps_since_update + 1 := by
    rw [hfreq, hsteps]
    omega
  have hlt : engC4.epsilon_min < engC4.epsilon := by
    rw [hmin, heps]
    norm_num
  have hEq := learn_decay_eval engC4 sample32 hlen htr hfr hlt
  rw [hEq]
  show engC4.epsilon * engC4.epsilon_decay < engC4.epsilon_min
  rw [heps, hdec, hmin]
  norm_num

theorem learn_fields (e : Engine) (idxs : List Nat) :
    (learn e idxs).1.epsilon_decay = e.epsilon_decay ∧
    (learn e idxs).1.epsilon_min = e.epsilon_min ∧
    ((learn e idxs).1.epsilon = e.epsilon ∨
      ((learn e idxs).1.epsilon = e.epsilon * e.epsilon_decay ∧
        e.epsilon_min < e.epsilon)) := by
  simp only [learn, trainOnBatch, updateTargetNetwork]
  split_ifs with h1 h2 h3 h4
  · exact ⟨rfl, rfl, Or.inl rfl⟩
  · exact ⟨rfl, rfl, Or.inl rfl⟩
  · exact ⟨rfl, rfl, Or.inr ⟨rfl, h4⟩⟩
  · exact ⟨rfl, rfl, Or.inl rfl⟩
  · exact ⟨rfl, rfl, Or.inr ⟨rfl, by exact ‹_›⟩⟩
  · exact ⟨rfl, rfl, Or.inl rfl⟩

theorem learn_eps_step (e : Engine) (idxs : List Nat)
    (hd : e.epsilon_decay = 995/1000) (hm : e.epsilon_min = 1/100)
    (hfl : 199/20000 ≤ e.epsilon) :
    (learn e idxs).1.epsilon ≤ e.epsilon ∧
    199/20000 ≤ (learn e idxs).1.epsilon ∧
    (learn e idxs).1.epsilon_decay = 995/1000 ∧
    (learn e idxs).1.epsilon_min = 1/100 := by
  obtain ⟨hd', hm', hcase⟩ := learn_fields e idxs
  refine ⟨?_, ?_, hd'.trans hd, hm'.trans hm⟩ <;>
    rcases hcase with h | ⟨h, hlt⟩
  · rw [h]
  · rw [h, hd]
    nlinarith
  · rw [h]
    exact hfl
  · rw [h, hd, hm] at *
    nlinarith

theorem learnFold_inv (idxss : List (List Nat)) : ∀ e : Engine,
    e.epsilon_decay = 995/1000 → e.epsilon_min = 1/100 → 199/20000 ≤ e.epsilon →
    ((learnFold e idxss).epsilon_decay = 995/1000 ∧
     (learnFold e idxss).epsilon_min = 1/100 ∧
     199/20000 ≤ (learnFold e idxss).epsilon) := by
  induction idxss with
  | nil => intro e hd hm hfl; exact ⟨hd, hm, hfl⟩
  | cons idxs rest ih =>
    intro e hd hm hfl
    obtain ⟨_, hfl', hd', hm'⟩ := learn_eps_step e idxs hd hm hfl
    exact ih ((learn e idxs).1) hd' hm' hfl'

/-- C4 amended: across every sequence of learn calls on an engine with the
constructed decay 0.995 and floor 0.01, epsilon is non-increasing at every
step, it never falls below epsilon_min * epsilon_decay = 0.00995 (one decay
step below the floor — the code tests the floor before multiplying instead
of clamping after), and once epsilon is at or below the floor a learn call
leaves it unchanged. -/
theorem epsilon_nonincreasing_amended (e : Engine)
    (hd : e.epsilon_decay = 995/1000) (hm : e.epsilon_min = 1/100)
    (hfl : 199/20000 ≤ e.epsilon) (idxss : List (List Nat)) :
    (∀ pre idxs suf, idxss = pre ++ idxs :: suf →
        (learnFold e (pre ++ [idxs])).epsilon ≤ (learnFold e pre).epsilon) ∧
    199/20000 ≤ (learnFold e idxss).epsilon ∧
    (∀ (f : Engine) (idxs : List Nat), f.epsilon ≤ f.epsilon_min →
        (learn f idxs).1.epsilon = f.epsilon) := by
  refine ⟨?_, (learnFold_inv idxss e hd hm hfl).2.2, ?_⟩
  · intro pre idxs _ _
    have hstep : learnFold e (pre ++ [idxs]) = (learn (learnFold e pre) idxs).1 := by
      unfold learnFold
      rw [List.foldl_append]
      rfl
    obtain ⟨hd', hm', hfl'⟩ := learnFold_inv pre e hd hm hfl
    rw [hstep]
    exact (learn_eps_step (learnFold e pre) idxs hd' hm' hfl').1
  · intro f idxs hle
    rcases (learn_fields f idxs).2.2 with h | ⟨_, hlt⟩
    · exact h
    · exact absurd (lt_of_le_of_lt hle hlt) (lt_irrefl _)

theorem epsilon_nonincreasing_amended_witness :
    ((mkEngine 1 1 1 0 [] [] [] []).epsilon_decay = 995/1000 ∧
     (mkEngine 1 1 1 0 [] [] [] []).epsilon_min = 1/100 ∧
     (199:ℚ)/20000 ≤ (mkEngine 1 1 1 0 [] [] [] []).epsilon) ∧
    ((∀ pre idxs suf, [[0], [1]] = pre ++ idxs :: suf →
        (learnFold (mkEngine 1 1 1 0 [] [] [] []) (pre ++ [idxs])).epsilon ≤
          (learnFold (mkEngine 1 1 1 0 [] [] [] []) pre).epsilon) ∧
     (199:ℚ)/20000 ≤ (learnFold (mkEngine 1 1 1 0 [] [] [] []) [[0], [1]]).epsilon ∧
     (∀ (f : Engine) (idxs : List Nat), f.epsilon ≤ f.epsilon_min →
        (learn f idxs).1.epsilon = f.epsilon)) :=
  ⟨⟨rfl, rfl, by show (199:ℚ)/20000 ≤ 1; norm_num⟩,
   epsilon_nonincreasing_amended (mkEngine 1 1 1 0 [] [] [] []) rfl rfl
     (by show (199:ℚ)/20000 ≤ 1; norm_num) [[0], [1]]⟩

theorem getAction_fst (e : Engine) (r : ℚ) (k : Fin 4) (st : StateE) :
    (getAction e r k st).1 = { e with total_steps := e.total_steps + 1 } := by
  simp only [getAction]
  split_ifs <;> rfl

theorem clampQ_mem (x : ℚ) : 0 ≤ clampQ x 0 1 ∧ clampQ x 0 1 ≤ 1 := by
  unfold clampQ
  split_ifs with h1 h2
  · exact ⟨le_refl 0, zero_le_one⟩
  · exact ⟨zero_le_one, le_refl 1⟩
  · exact ⟨not_lt.mp h1, not_lt.mp h2⟩

theorem step_preserves_EpsInv (e : Engine) (op : Op) (h : EpsInv e) :
    EpsInv (step e op) := by
  obtain ⟨h0, h1, hd0, hd1⟩ := h
  cases op with
  | initOp => exact ⟨h0, h1, hd0, hd1⟩
  | getActionOp r k st =>
    show EpsInv ((getAction e r k st).1)
    rw [getAction_fst]
    exact ⟨h0, h1, hd0, hd1⟩
  | storeOp st a rw ns d => exact ⟨h0, h1, hd0, hd1⟩
  | learnOp idxs =>
    obtain ⟨hd', _, hcase⟩ := learn_fields e idxs
    show EpsInv ((learn e idxs).1)
    rcases hcase with heq | ⟨heq, _⟩
    · exact ⟨heq ▸ h0, heq ▸ h1, hd' ▸ hd0, hd' ▸ hd1⟩
    · refine ⟨?_, ?_, hd' ▸ hd0, hd' ▸ hd1⟩
      · rw [heq]
        exact mul_nonneg h0 hd0
      · rw [heq]
        calc e.epsilon * e.epsilon_decay ≤ 1 * 1 :=
              mul_le_mul h1 hd1 hd0 zero_le_one
          _ = 1 := one_mul 1
  | startOp => exact ⟨h0, h1, hd0, hd1⟩
  | endOp rw => exact ⟨h0, h1, hd0, hd1⟩
  | setEpsOp x =>
    have hc := clampQ_mem x
    exact ⟨hc.1, hc.2, hd0, hd1⟩
  | stopOp => exact ⟨zero_le_one, le_refl 1, hd0, hd1⟩
  | resetOp => exact ⟨zero_le_one, le_refl 1, hd0, hd1⟩
  | shutdownOp => exact ⟨h0, h1, hd0, hd1⟩

theorem run_preserves_EpsInv (ops : List Op) : ∀ e : Engine, EpsInv e →
    EpsInv (run e ops) := by
  induction ops with
  | nil => intro e h; exact h
  | cons op rest ih =>
    intro e h
    exact ih (step e op) (step_preserves_EpsInv e op h)

/-- C10: for every engine built by the constructor and every sequence of
public operations, epsilon stays in [0, 1]; moreover setExplorationRate
clamps every argument into [0, 1] on every engine state. -/
theorem epsilon_unit_interval_invariant (ss as hs : Nat) (lr : ℚ)
    (qd0 qd1 td0 td1 : List ℚ) (ops : List Op) :
    (0 ≤ (run (mkEngine ss as hs lr qd0 qd1 td0 td1) ops).epsilon ∧
     (run (mkEngine ss as hs lr qd0 qd1 td0 td1) ops).epsilon ≤ 1) ∧
    (∀ (e : Engine) (x : ℚ), 0 ≤ (setExplorationRate e x).epsilon ∧
       (setExplorationRate e x).epsilon ≤ 1) := by
  constructor
  · have hinv : EpsInv (mkEngine ss as hs lr qd0 qd1 td0 td1) :=
      ⟨zero_le_one, le_refl 1, by show (0:ℚ) ≤ 995/1000; norm_num,
       by show (995:ℚ)/1000 ≤ 1; norm_num⟩
    have hrun := run_preserves_EpsInv ops _ hinv
    exact ⟨hrun.1, hrun.2.1⟩
  · intro e x
    exact clampQ_mem x

/-- C6: in each iteration of the batch-training loop, when both predictions
succeed and the stored action index is within the live prediction's range
(the code's own guard), the vector the live network is trained toward
equals the live network's current prediction with exactly the component at
the action index overwritten by reward (terminal) or reward + gamma * max
of the target network's next-state prediction (non-terminal). -/
theorem trainOnExp_blended_target (q tnet : QNetwork) (g : ℚ) (exp : Experience)
    (cur nxt : List ℚ)
    (hc : q.predict exp.state.features = some cur)
    (hn : tnet.predict exp.next_state.features = some nxt)
    (hidx : toIdx (exp.action.parameters.getD 0 0) < cur.length) :
    ∃ tgt : List ℚ,
      trainOnExp q tnet g exp = q.train exp.state.features tgt ∧
      trainOnExp q tnet g exp = some (q.backward exp.state.features tgt) ∧
      tgt.length = cur.length ∧
      tgt.getD (toIdx (exp.action.parameters.getD 0 0)) 0 =
        (if exp.done then exp.reward else exp.reward + g * maxElem nxt) ∧
      (∀ j, j ≠ toIdx (exp.action.parameters.getD 0 0) → tgt.getD j 0 = cur.getD j 0) := by
  set idx := toIdx (exp.action.parameters.getD 0 0) with hidxdef
  set tq := targetQ g exp.reward exp.done nxt with htqdef
  refine ⟨cur.set idx tq, ?_, ?_, ?_, ?_, ?_⟩
  · simp only [trainOnExp, hc, hn]
    rw [blendTarget, if_pos hidx]
  · simp only [trainOnExp, hc, hn]
    rw [blendTarget, if_pos hidx]
    have hf : q.forward exp.state.features = some cur := hc
    simp only [QNetwork.train, hf]
  · exact List.length_set cur idx tq
  · rw [List.getD_eq_getElem?_getD, List.getElem?_set_self hidx,
      Option.getD_some, htqdef, targetQ]
  · intro j hj
    rw [List.getD_eq_getElem?_getD, List.getElem?_set_ne (Ne.symm hj),
      ← List.getD_eq_getElem?_getD]

theorem netC6_predict : netC6.predict [1] = some [2] := by
  norm_num [netC6, mkQNetwork, QNetwork.predict, QNetwork.forward, QNetwork.hiddenLayer,
    QNetwork.outputLayer, dotSum, QNetwork.w0, QNetwork.w1, relu, List.range_succ]

theorem expC6_idx : toIdx (expC6.action.parameters.getD 0 0) = 0 := by
  rw [show expC6.action.parameters.getD 0 0 = (0 : ℚ) from rfl, toIdx_zero]

theorem trainOnExp_blended_target_witness :
    (netC6.predict expC6.state.features = some [2] ∧
     netC6.predict expC6.next_state.features = some [2] ∧
     toIdx (expC6.action.parameters.getD 0 0) < ([2] : List ℚ).length) ∧
    (∃ tgt : List ℚ,
      trainOnExp netC6 netC6 (99/100) expC6 = netC6.train expC6.state.features tgt ∧
      trainOnExp netC6 netC6 (99/100) expC6 = some (netC6.backward expC6.state.features tgt) ∧
      tgt.length = ([2] : List ℚ).length ∧
      tgt.getD (toIdx (expC6.action.parameters.getD 0 0)) 0 =
        (if expC6.done then expC6.reward
         else expC6.reward + (99/100) * maxElem [2]) ∧
      (∀ j, j ≠ toIdx (expC6.action.parameters.getD 0 0) →
          tgt.getD j 0 = ([2] : List ℚ).getD j 0)) :=
  ⟨⟨netC6_predict, netC6_predict, by rw [expC6_idx]; decide⟩,
   trainOnExp_blended_target netC6 netC6 (99/100) expC6 [2] [2]
     netC6_predict netC6_predict (by rw [expC6_idx]; decide)⟩

end EVA
